import Mathlib

/-!
Verification of the ink-picture image-rendering core.

This file gives a shallow embedding, in Lean 4, of the parts of the
repository that the specification's testable properties talk about:

* the protocol fallback state machine of `src/components/image/index.tsx`
  (`getFallbackProtocol`, `handleSupportDetected`);
* the capability-driven protocol selection heuristic of
  `src/utils/getBestProtocol.ts`;
* the size-negotiation function `calculateImageSize` of
  `src/utils/image.ts`, and its alignment-aware variant;
* the Kitty image-id allocator of `src/types/jimp.ts`
  (`KittyIdGenerator.generateId` / `freeId`);
* the pixel-to-glyph mapping of the Ascii encoder
  (`toAscii` in `src/components/image/Ascii.tsx`);
* the failure handling of `fetchImage` and the Ascii component's
  placeholder rendering;
* the timer/listener/raw-mode discipline of `queryEscapeSequence`.

JavaScript numbers are modelled as rationals (ℚ), `Math.round` as
`⌊x + 1/2⌋`, `Math.floor` as `⌊x⌋`, and JS truthiness of an optional
numeric argument as "present and nonzero".  Mutable objects become
explicit state records, and `try/catch` around an external call becomes
an `Except`-valued parameter.
-/

namespace InkPicture

/-! ### Protocol names and the fallback state machine
Source: `src/components/image/index.tsx`. -/

/-- The six image protocols, `ImageProtocolName` in
`src/components/image/index.tsx` (the keys of `imageProtocols`). -/
inductive ImageProtocolName
  | ascii
  | braille
  | halfBlock
  | iterm2
  | kitty
  | sixel
  deriving DecidableEq, Repr

open ImageProtocolName

/-- `getFallbackProtocol` (src/components/image/index.tsx lines 107-125):
the next protocol to try after the current one reported itself
unsupported.  The `default` arm of the `switch` returns `"ascii"`. -/
def getFallbackProtocol : ImageProtocolName → ImageProtocolName
  | kitty => halfBlock
  | iterm2 => halfBlock
  | sixel => halfBlock
  | halfBlock => braille
  | braille => ascii
  | _ => ascii

/-- `handleSupportDetected` (src/components/image/index.tsx lines 135-146)
as a transition on the component's protocol state: a `true` signal keeps
the current protocol, a `false` signal moves to the fallback protocol. -/
def handleSupportDetected (isSupported : Bool) (protocol : ImageProtocolName) :
    ImageProtocolName :=
  if isSupported then protocol else getFallbackProtocol protocol

/-- The initial protocol state of the public `Image` component
(src/components/image/index.tsx line 92-96): the `protocol` prop when
given, and the constant default `"ascii"` otherwise.  Terminal
capabilities are not an input of this computation. -/
def imageInitialProtocol (protocolProp : Option ImageProtocolName) :
    ImageProtocolName :=
  protocolProp.getD ascii

/-! ### Capability-driven protocol selection
Source: `src/utils/getBestProtocol.ts` and the capability record of
`src/context/TerminalInfo.tsx`. -/

/-- `TerminalCapabilities` (src/context/TerminalInfo.tsx lines 75-85). -/
structure TerminalCapabilities where
  supportsUnicode : Bool
  supportsColor : Bool
  supportsSixelGraphics : Bool
  supportsKittyGraphics : Bool
  supportsITerm2Graphics : Bool
  deriving DecidableEq, Repr

/-- The two environment variables `getBestProtocol` consults:
`process.env["TERM_PROGRAM"]` and `process.env["KONSOLE_VERSION"]`.
`none` models an unset variable. -/
structure Env where
  termProgram : Option String
  konsoleVersion : Option String
  deriving DecidableEq, Repr

/-- JS truthiness of `process.env[name]`: set and nonempty. -/
def envTruthy : Option String → Bool
  | none => false
  | some s => s ≠ ""

/-- `getBestProtocol` (src/utils/getBestProtocol.ts lines 5-43): the
if/else-if chain selecting the best protocol from the environment and
the capability snapshot. -/
def getBestProtocol (env : Env) (caps : TerminalCapabilities) :
    ImageProtocolName :=
  if env.termProgram = some "iTerm.app" ∧ caps.supportsITerm2Graphics then
    iterm2
  else if env.termProgram = some "WarpTerminal" ∧ caps.supportsITerm2Graphics then
    iterm2
  else if env.termProgram = some "WezTerm" ∧ caps.supportsITerm2Graphics then
    iterm2
  else if envTruthy env.konsoleVersion ∧ caps.supportsKittyGraphics then
    kitty
  else if caps.supportsKittyGraphics then
    kitty
  else if caps.supportsITerm2Graphics then
    iterm2
  else if caps.supportsSixelGraphics then
    sixel
  else if caps.supportsUnicode ∧ caps.supportsColor then
    halfBlock
  else if caps.supportsUnicode then
    braille
  else
    ascii

/-- An environment with neither `TERM_PROGRAM` nor `KONSOLE_VERSION`
set: no terminal-specific override can fire. -/
def neutralEnv : Env := ⟨none, none⟩

/-! ### Size negotiation
Source: `calculateImageSize` in `src/utils/image.ts` (lines 14-75) and
the alignment-aware variant of the same function (unnamed source file,
lines 16-85).  JS numbers are rationals, `Math.round x` is `⌊x + 1/2⌋`
(the JS round-half-up convention), `Math.floor` is `⌊·⌋`, and an
optional numeric argument is truthy when present and nonzero. -/

/-- JS `Math.round` on a rational: round half up. -/
def jsRound (x : ℚ) : ℤ := ⌊x + 1 / 2⌋

/-- JS truthiness of an optional numeric value (absent, `0` and `NaN`
are falsy; we do not model `NaN`). -/
def numTruthy : Option ℚ → Bool
  | none => false
  | some x => x ≠ 0

/-- The result record of `calculateImageSize`: rounded whole units. -/
structure ImageSize where
  width : ℤ
  height : ℤ
  deriving DecidableEq, Repr

/-- `calculateImageSize` (src/utils/image.ts lines 14-75): fit an image
into `maxWidth × maxHeight` honouring optionally specified dimensions
and the original aspect ratio; every branch rounds its result. -/
def calculateImageSize (maxWidth maxHeight originalAspectRatio : ℚ)
    (specifiedWidth specifiedHeight : Option ℚ) : ImageSize :=
  if numTruthy specifiedWidth ∧ numTruthy specifiedHeight then
    let width := min (specifiedWidth.getD 0) maxWidth
    let height := min (specifiedHeight.getD 0) maxHeight
    ⟨jsRound width, jsRound height⟩
  else if numTruthy specifiedWidth then
    let width := min (specifiedWidth.getD 0) maxWidth
    let height := width / originalAspectRatio
    if height > maxHeight then
      ⟨jsRound (maxHeight * originalAspectRatio), jsRound maxHeight⟩
    else
      ⟨jsRound width, jsRound height⟩
  else if numTruthy specifiedHeight then
    let height := min (specifiedHeight.getD 0) maxHeight
    let width := height * originalAspectRatio
    if width > maxWidth then
      ⟨jsRound maxWidth, jsRound (maxWidth / originalAspectRatio)⟩
    else
      ⟨jsRound width, jsRound height⟩
  else
    let height := maxHeight
    let width := height * originalAspectRatio
    let wh : ℚ × ℚ :=
      if width > maxWidth then (maxWidth, maxWidth / originalAspectRatio)
      else (width, height)
    let wh2 : ℚ × ℚ :=
      if wh.2 > maxHeight then (maxHeight * originalAspectRatio, maxHeight)
      else wh
    ⟨jsRound wh2.1, jsRound wh2.2⟩

/-- JS `alignment.width || 1`: the value when truthy, else `1`. -/
def numOr1 (o : Option ℚ) : ℚ :=
  if numTruthy o then o.getD 0 else 1

/-- The pre-alignment width/height of the alignment-aware
`calculateImageSize` variant (unnamed source file, lines 31-73): the
same four branches as `calculateImageSize`, without rounding. -/
def rawImageSize (maxWidth maxHeight originalAspectRatio : ℚ)
    (specifiedWidth specifiedHeight : Option ℚ) : ℚ × ℚ :=
  if numTruthy specifiedWidth ∧ numTruthy specifiedHeight then
    (min (specifiedWidth.getD 0) maxWidth, min (specifiedHeight.getD 0) maxHeight)
  else if numTruthy specifiedWidth then
    let width := min (specifiedWidth.getD 0) maxWidth
    let height := width / originalAspectRatio
    if height > maxHeight then (maxHeight * originalAspectRatio, maxHeight)
    else (width, height)
  else if numTruthy specifiedHeight then
    let height := min (specifiedHeight.getD 0) maxHeight
    let width := height * originalAspectRatio
    if width > maxWidth then (maxWidth, maxWidth / originalAspectRatio)
    else (width, height)
  else
    let height := maxHeight
    let width := height * originalAspectRatio
    let wh : ℚ × ℚ :=
      if width > maxWidth then (maxWidth, maxWidth / originalAspectRatio)
      else (width, height)
    if wh.2 > maxHeight then (maxHeight * originalAspectRatio, maxHeight)
    else wh

/-- One dimension of the alignment step (unnamed source file, lines
75-84): floor-divide to the grid, round, and force at least one
alignment unit: `Math.max(alignW, Math.round(Math.floor(w / alignW) * alignW))`. -/
def alignDim (w align : ℚ) : ℚ :=
  max align ((jsRound ((⌊w / align⌋ : ℚ) * align) : ℚ))

/-- The alignment-aware `calculateImageSize` variant (unnamed source
file, lines 16-85): same fitting logic, then dimensions are aligned to
the cell grid given by `alignment`, defaulting each factor to `1`. -/
def calculateImageSizeAligned (maxWidth maxHeight originalAspectRatio : ℚ)
    (specifiedWidth specifiedHeight alignmentWidth alignmentHeight : Option ℚ) :
    ℚ × ℚ :=
  let wh := rawImageSize maxWidth maxHeight originalAspectRatio
    specifiedWidth specifiedHeight
  (alignDim wh.1 (numOr1 alignmentWidth), alignDim wh.2 (numOr1 alignmentHeight))

/-! ### Kitty image-id allocation
Source: `KittyIdGenerator` in `src/types/jimp.ts` (lines 10-49).  The
JS `Set` of freed ids iterates in insertion order and
`freedIds.values().next().value` takes the first inserted element, so
the free pool is modelled as a duplicate-free list used FIFO. -/

def MIN_ID : ℕ := 1048576

def MAX_ID : ℕ := 16777216

/-- The allocator's mutable state: the sequential counter and the free
pool in insertion order. -/
structure KittyIdGenerator where
  currentId : ℕ
  freedIds : List ℕ
  deriving DecidableEq, Repr

/-- The freshly constructed singleton generator: `currentId = MIN_ID`,
empty free pool. -/
def KittyIdGenerator.init : KittyIdGenerator := ⟨MIN_ID, []⟩

/-- `generateId` (src/types/jimp.ts lines 17-31): reuse the first freed
id if any, otherwise mint `currentId` (post-incrementing), failing with
an overflow error once `currentId` reaches `MAX_ID`. -/
def KittyIdGenerator.generateId (g : KittyIdGenerator) :
    Except String (ℕ × KittyIdGenerator) :=
  match g.freedIds with
  | reusedId :: rest => .ok (reusedId, ⟨g.currentId, rest⟩)
  | [] =>
    if MAX_ID ≤ g.currentId then
      .error "Kitty ID overflow: Maximum ID value reached"
    else
      .ok (g.currentId, ⟨g.currentId + 1, []⟩)

/-- `freeId` (src/types/jimp.ts lines 33-39): return an id to the free
pool when it lies in the managed range below the counter (the JS
`Set.add` keeps a single copy; the returned boolean is `true` exactly
when the range check passes). -/
def KittyIdGenerator.freeId (g : KittyIdGenerator) (n : ℕ) :
    Bool × KittyIdGenerator :=
  if MIN_ID ≤ n ∧ n < g.currentId then
    (true,
      ⟨g.currentId, if n ∈ g.freedIds then g.freedIds else g.freedIds ++ [n]⟩)
  else
    (false, g)

/-- Allocate `n` ids in sequence, collecting them in order. -/
def KittyIdGenerator.generateN (g : KittyIdGenerator) :
    ℕ → Except String (List ℕ × KittyIdGenerator)
  | 0 => .ok ([], g)
  | n + 1 =>
    match g.generateId with
    | .error e => .error e
    | .ok (i, g') =>
      match g'.generateN n with
      | .error e => .error e
      | .ok (l, g'') => .ok (i :: l, g'')

/-- Free a list of ids in sequence. -/
def KittyIdGenerator.freeAll (g : KittyIdGenerator) :
    List ℕ → KittyIdGenerator
  | [] => g
  | n :: rest => ((g.freeId n).2).freeAll rest

/-- States reachable from the fresh allocator by an interleaving of
`generateId` and `freeId` calls in which only currently live ids are
freed, tracked alongside the ghost set `live` of ids allocated and not
since freed. -/
inductive KittyReachable : Finset ℕ → KittyIdGenerator → Prop
  | init : KittyReachable ∅ KittyIdGenerator.init
  | gen {live : Finset ℕ} {g : KittyIdGenerator} {i : ℕ}
      {g' : KittyIdGenerator} :
      KittyReachable live g → g.generateId = .ok (i, g') →
      KittyReachable (insert i live) g'
  | free {live : Finset ℕ} {g : KittyIdGenerator} {i : ℕ} :
      KittyReachable live g → i ∈ live →
      KittyReachable (live.erase i) (g.freeId i).2

/-- The allocator invariant: live and freed ids lie in
`[MIN_ID, currentId)`, the free pool is duplicate-free and disjoint
from the live set, and the counter stays in `[MIN_ID, MAX_ID]`. -/
structure KittyInv (live : Finset ℕ) (g : KittyIdGenerator) : Prop where
  live_range : ∀ i ∈ live, MIN_ID ≤ i ∧ i < g.currentId
  freed_range : ∀ i ∈ g.freedIds, MIN_ID ≤ i ∧ i < g.currentId
  freed_nodup : g.freedIds.Nodup
  freed_disjoint : ∀ i ∈ g.freedIds, i ∉ live
  min_le : MIN_ID ≤ g.currentId
  le_max : g.currentId ≤ MAX_ID

/-! ### The Ascii encoder's pixel-to-glyph mapping
Source: `toAscii` in `src/components/image/Ascii.tsx` (lines 114-151). -/

/-- The 70-character brightness ramp (`ascii_chars` in `toAscii`),
as its list of characters. -/
def ascii_chars : List Char :=
  "$@B%8&WM#*oahkbdpqwmZO0QLCJUYXzcvunxrjft/\\|()1\x7b\x7d[]?-_+~<>i!lI;:,\"^`'. ".toList

/-- A pixel's intensity (Ascii.tsx line 136):
`r + g + b + a == 0 ? 0 : (r + g + b + a) / (255 * 4)`. -/
def asciiIntensity (r g b a : ℕ) : ℚ :=
  if r + g + b + a = 0 then 0 else ((r : ℚ) + g + b + a) / (255 * 4)

/-- The glyph index (Ascii.tsx lines 137-142):
`ascii_chars.length - 1 - Math.floor(intensity * (ascii_chars.length - 1))`. -/
def asciiCharIndex (r g b a : ℕ) : ℕ :=
  (((ascii_chars.length : ℤ) - 1) -
    ⌊asciiIntensity r g b a * ((ascii_chars.length : ℤ) - 1)⌋).toNat

/-- The glyph chosen for a pixel: `ascii_chars[index]`. -/
def asciiPixelChar (r g b a : ℕ) : Char :=
  ascii_chars.getD (asciiCharIndex r g b a) ' '

/-! ### Image fetching and the load-failure placeholder
Source: `fetchImage` in `src/utils/image.ts` (lines 4-12) and the Ascii
component's `generateImageOutput` effect and render
(`src/components/image/Ascii.tsx` lines 50-111).  The external
`Jimp.read` call is a parameter returning `Except` (a thrown exception
is the `error` case); the `try/catch` of `fetchImage` converts it to an
optional value. -/

/-- `fetchImage`: `try { return await Jimp.read(src) } catch { return
undefined }`. -/
def fetchImage {ε Img : Type} (read : String → Except ε Img)
    (src : String) : Option Img :=
  match read src with
  | .ok img => some img
  | .error _ => none

/-- The Ascii component's state cells: `imageOutput` (initially null)
and `hasError` (initially false). -/
structure AsciiComponentState where
  imageOutput : Option String
  hasError : Bool
  deriving DecidableEq, Repr

/-- What the Ascii component's effect does with a fetch result
(Ascii.tsx lines 50-90): a failed fetch sets `hasError` and returns
early (leaving `imageOutput` unchanged); a successful fetch clears
`hasError` and, when the rest of the pipeline (container measurement,
resize, `toAscii`) produces output, stores it.  That rest of the
pipeline is abstracted as `computeOutput`. -/
def generateImageOutputStep {Img : Type} (fetched : Option Img)
    (computeOutput : Img → Option String) (st : AsciiComponentState) :
    AsciiComponentState :=
  match fetched with
  | none => { st with hasError := true }
  | some img =>
    match computeOutput img with
    | none => { st with hasError := false }
    | some out => { imageOutput := some out, hasError := false }

/-- JS `props.alt || "Loading..."`. -/
def jsStrOr (o : Option String) (dflt : String) : String :=
  match o with
  | none => dflt
  | some s => if s = "" then dflt else s

/-- What the Ascii component renders (Ascii.tsx lines 93-111): the
image lines when output exists, otherwise the placeholder (with a
"Load failed" marker exactly when `hasError` is set, and the alt
text or "Loading..."). -/
inductive AsciiView
  | imageLines (lines : List String)
  | placeholder (loadFailed : Bool) (text : String)
  deriving DecidableEq, Repr

/-- The Ascii component's render function. -/
def renderAscii (st : AsciiComponentState) (alt : Option String) :
    AsciiView :=
  match st.imageOutput with
  | some out => .imageLines (out.splitOn "\n")
  | none => .placeholder st.hasError (jsStrOr alt "Loading...")

/-! ### `queryEscapeSequence`: timers, listeners, raw mode
Source: `queryEscapeSequence` (unnamed source file, lines 79-146; the
variant at lines 13-70 has identical timer/listener logic and delegates
raw-mode bookkeeping to the caller's `setRawMode`).  The asynchronous
execution is modelled as a state machine: the promise executor builds
the initial state, and each thing that can happen next — a stdin
`data` chunk arriving, the absolute response timeout firing, the
inter-chunk quiet timeout firing, stdin closing — is one atomic step.
An armed timer is `some d` with its duration in milliseconds;
`clearTimeout`, and firing, disarm it to `none`.  A fired timer whose
handle was cleared, or an event whose listener was removed, is a no-op,
mirroring Node's `clearTimeout`/`removeListener` guarantees; Node never
delivers an empty `data` chunk, so data events carry nonempty
strings. -/

/-- `responseTimeout` (line 86): the absolute timeout, in ms. -/
def responseTimeout : ℕ := 100

/-- `timeoutBetweenReplies` (line 88): the inter-chunk quiet period,
in ms. -/
def timeoutBetweenReplies : ℕ := 50

/-- The mutable state of one `queryEscapeSequence` execution. -/
structure QueryState where
  wasRaw : Bool
  isTTY : Bool
  rawMode : Bool
  dataListener : Bool
  closeListener : Bool
  absTimer : Option ℕ
  quietTimer : Option ℕ
  runningReply : String
  result : Option (Option String)
  deriving DecidableEq, Repr

/-- The promise executor (lines 83-142): capture `wasRaw`, enable raw
mode when the stream is a TTY and was not already raw, attach the
`data` and `close` listeners, arm the absolute timeout. -/
def queryStart (wasRaw isTTY : Bool) : QueryState :=
  { wasRaw := wasRaw
    isTTY := isTTY
    rawMode := if ¬wasRaw ∧ isTTY then true else wasRaw
    dataListener := true
    closeListener := true
    absTimer := some responseTimeout
    quietTimer := none
    runningReply := ""
    result := none }

/-- `restoreState` (lines 98-113): restore the remembered raw/cooked
mode (when the stream is a TTY), remove both listeners, clear both
timers. -/
def restoreState (s : QueryState) : QueryState :=
  { s with
    rawMode := if s.isTTY then s.wasRaw else s.rawMode
    dataListener := false
    closeListener := false
    absTimer := none
    quietTimer := none }

/-- The value resolved on the quiet-timeout and close paths (lines
125, 131): `runningReply.length > 0 ? runningReply : undefined`. -/
def replyValue (s : QueryState) : Option String :=
  if 0 < s.runningReply.length then some s.runningReply else none

/-- The four things that can happen to a pending execution. -/
inductive QueryEvent
  | data (chunk : String)
  | absTimeout
  | quietTimeout
  | close
  deriving DecidableEq, Repr

/-- One atomic step: `onData` (lines 115-127) clears both timers,
appends the chunk and re-arms the quiet timer; the absolute-timeout
handler (lines 137-140) restores state and resolves `undefined`; the
quiet-timeout handler (lines 123-126) and `onClose` (lines 129-132)
restore state and resolve the accumulated reply when nonempty. -/
def queryStep (s : QueryState) : QueryEvent → QueryState
  | .data chunk =>
    if s.dataListener then
      { s with
        absTimer := none
        runningReply := s.runningReply ++ chunk
        quietTimer := some timeoutBetweenReplies }
    else s
  | .absTimeout =>
    match s.absTimer with
    | some _ => { restoreState s with result := some none }
    | none => s
  | .quietTimeout =>
    match s.quietTimer with
    | some _ => { restoreState s with result := some (replyValue s) }
    | none => s
  | .close =>
    if s.closeListener then
      { restoreState s with result := some (replyValue s) }
    else s

/-- Environment assumption: `data` events carry nonempty chunks. -/
def validQueryEvent : QueryEvent → Prop
  | .data chunk => 0 < chunk.length
  | _ => True

/-- An execution: the initial state followed by a sequence of steps. -/
def queryRun (wasRaw isTTY : Bool) (evs : List QueryEvent) : QueryState :=
  evs.foldl queryStep (queryStart wasRaw isTTY)

/-- The execution invariant of `queryEscapeSequence` for a stream that
was in mode `w` and has TTY-ness `t`: once resolved, both listeners
are removed, both timers are cleared and the raw/cooked mode is back to
`w`; while pending, both listeners are attached, raw mode is the
override the executor set, exactly one of the two timers is armed with
its default duration, the absolute timer only while no data has
arrived, the quiet timer only once the reply is nonempty. -/
structure QueryInv (w t : Bool) (s : QueryState) : Prop where
  was_eq : s.wasRaw = w
  tty_eq : s.isTTY = t
  resolved : s.result.isSome →
    s.dataListener = false ∧ s.closeListener = false ∧
    s.absTimer = none ∧ s.quietTimer = none ∧ s.rawMode = w
  pending : s.result = none →
    s.dataListener = true ∧ s.closeListener = true ∧
    s.rawMode = (if ¬w ∧ t then true else w) ∧
    (s.absTimer = some responseTimeout ∨
      s.quietTimer = some timeoutBetweenReplies) ∧
    (s.absTimer.isSome →
      s.absTimer = some responseTimeout ∧
      s.runningReply.length = 0 ∧ s.quietTimer = none) ∧
    (s.quietTimer.isSome →
      s.quietTimer = some timeoutBetweenReplies ∧
      0 < s.runningReply.length ∧ s.absTimer = none)

end InkPicture

namespace InkPicture

open ImageProtocolName

/-! #### Rounding lemmas -/

theorem jsRound_nonneg {x : ℚ} (hx : 0 < x) : 0 ≤ jsRound x := by
  unfold jsRound
  exact Int.le_floor.mpr (by push_cast; linarith)

theorem jsRound_le_int {x : ℚ} {n : ℤ} (h : x ≤ (n : ℚ)) : jsRound x ≤ n := by
  unfold jsRound
  have : ⌊x + 1 / 2⌋ < n + 1 := Int.floor_lt.mpr (by push_cast; linarith)
  omega

theorem jsRound_intCast (n : ℤ) : jsRound ((n : ℤ) : ℚ) = n := by
  unfold jsRound
  rw [Int.floor_int_add]
  norm_num

theorem numTruthy_getD_pos {o : Option ℚ} (ht : numTruthy o = true)
    (hp : ∀ x ∈ o, 0 < x) : 0 < o.getD 0 := by
  cases o with
  | none => simp [numTruthy] at ht
  | some x => exact hp x rfl

/-- C1: from each of kitty, iterm2 and sixel, repeated
`supportDetected(false)` signals reach halfBlock after one transition,
braille after two and ascii after three; any number of further `false`
signals at ascii stays at ascii; and a `supportDetected(true)` signal
never changes the state. -/
theorem fallback_chain_walk :
    (handleSupportDetected false kitty = halfBlock ∧
      handleSupportDetected false iterm2 = halfBlock ∧
      handleSupportDetected false sixel = halfBlock) ∧
    ((handleSupportDetected false)^[2] kitty = braille ∧
      (handleSupportDetected false)^[2] iterm2 = braille ∧
      (handleSupportDetected false)^[2] sixel = braille) ∧
    ((handleSupportDetected false)^[3] kitty = ascii ∧
      (handleSupportDetected false)^[3] iterm2 = ascii ∧
      (handleSupportDetected false)^[3] sixel = ascii) ∧
    (∀ n : ℕ, (handleSupportDetected false)^[n] ascii = ascii) ∧
    (∀ p : ImageProtocolName, handleSupportDetected true p = p) := by
  refine ⟨by decide, by decide, by decide, fun n => ?_, fun p => ?_⟩
  · exact Function.iterate_fixed (by decide) n
  · cases p <;> rfl

/-- C10: when the `protocol` prop is omitted, the `Image` component's
initial protocol state is the constant `ascii`; the capability-driven
heuristic `getBestProtocol` is not consulted — with capabilities for
which `getBestProtocol` would choose `halfBlock` (unicode and color
available), an unspecified-protocol render still begins at `ascii`. -/
theorem image_default_protocol_is_ascii :
    imageInitialProtocol none = ascii ∧
    getBestProtocol neutralEnv ⟨true, true, false, false, false⟩ = halfBlock ∧
    getBestProtocol neutralEnv ⟨true, true, false, false, false⟩ ≠
      imageInitialProtocol none := by
  refine ⟨rfl, by decide, by decide⟩

/-- C5: with capabilities unicode only (no color, no graphics protocol)
and no terminal-specific environment override, selection resolves to
braille; adding color resolves to halfBlock; and absent overrides the
generic priority is kitty over iterm2 over sixel over halfBlock over
braille over ascii, gated by the capability flags. -/
theorem best_protocol_priority :
    getBestProtocol neutralEnv ⟨true, false, false, false, false⟩ = braille ∧
    getBestProtocol neutralEnv ⟨true, true, false, false, false⟩ = halfBlock ∧
    (∀ caps : TerminalCapabilities,
      getBestProtocol neutralEnv caps =
        if caps.supportsKittyGraphics then kitty
        else if caps.supportsITerm2Graphics then iterm2
        else if caps.supportsSixelGraphics then sixel
        else if caps.supportsUnicode ∧ caps.supportsColor then halfBlock
        else if caps.supportsUnicode then braille
        else ascii) := by
  refine ⟨by decide, by decide, fun caps => ?_⟩
  obtain ⟨u, c, s, k, i⟩ := caps
  cases u <;> cases c <;> cases s <;> cases k <;> cases i <;> decide

/-- C2, counterexample: the claimed bounds fail on the code.  With
`maxWidth = maxHeight = 10`, `originalAspectRatio = 1000` and
`specifiedWidth = 1`, the derived height `1/1000` rounds to `0`, so the
returned height is not strictly positive; with `maxWidth = 5/2` and both
dimensions specified, the width `5/2` rounds up to `3 > maxWidth`; and a
negative (truthy) `specifiedWidth = -5` yields a negative width. -/
theorem calculateImageSize_bounds_cex :
    ((0:ℚ) < 10 ∧ (0:ℚ) < 1000 ∧
      ¬ 0 < (calculateImageSize 10 10 1000 (some 1) none).height) ∧
    ((0:ℚ) < 5 / 2 ∧ (0:ℚ) < 1 ∧
      ¬ ((calculateImageSize (5 / 2) 10 1 (some (5 / 2)) (some 1)).width : ℚ)
          ≤ 5 / 2) ∧
    ¬ 0 < (calculateImageSize 10 10 1 (some (-5)) none).width := by
  norm_num [calculateImageSize, jsRound, numTruthy, min_def]

/-- `calculateImageSize` is the componentwise rounding of the
unrounded fitting computation `rawImageSize`. -/
theorem calculateImageSize_eq_round_raw (mw mh ar : ℚ) (sw sh : Option ℚ) :
    calculateImageSize mw mh ar sw sh =
      ⟨jsRound (rawImageSize mw mh ar sw sh).1,
        jsRound (rawImageSize mw mh ar sw sh).2⟩ := by
  unfold calculateImageSize rawImageSize
  dsimp only
  split_ifs <;> rfl

theorem rawImageSize_bounds {mw mh ar : ℚ} (sw sh : Option ℚ)
    (hmw : 0 < mw) (hmh : 0 < mh) (har : 0 < ar)
    (hsw : ∀ x ∈ sw, 0 < x) (hsh : ∀ x ∈ sh, 0 < x) :
    0 < (rawImageSize mw mh ar sw sh).1 ∧
      (rawImageSize mw mh ar sw sh).1 ≤ mw ∧
      0 < (rawImageSize mw mh ar sw sh).2 ∧
      (rawImageSize mw mh ar sw sh).2 ≤ mh := by
  unfold rawImageSize
  dsimp only
  split_ifs with h1 h2 h3 h4 h5 h6 h7 h8
  · -- both specified
    exact ⟨lt_min (numTruthy_getD_pos h1.1 hsw) hmw, min_le_right _ _,
      lt_min (numTruthy_getD_pos h1.2 hsh) hmh, min_le_right _ _⟩
  · -- only width specified, height clamp fires
    have hlt : mh * ar < min (sw.getD 0) mw := (lt_div_iff₀ har).mp h3
    exact ⟨mul_pos hmh har, le_trans hlt.le (min_le_right _ _), hmh, le_rfl⟩
  · -- only width specified, no clamp
    have hmin : 0 < min (sw.getD 0) mw := lt_min (numTruthy_getD_pos h2 hsw) hmw
    exact ⟨hmin, min_le_right _ _, div_pos hmin har, not_lt.mp h3⟩
  · -- only height specified, width clamp fires
    have hlt : mw / ar < min (sh.getD 0) mh := (div_lt_iff₀ har).mpr h5
    exact ⟨hmw, le_rfl, div_pos hmw har, le_trans hlt.le (min_le_right _ _)⟩
  · -- only height specified, no clamp
    have hmin : 0 < min (sh.getD 0) mh := lt_min (numTruthy_getD_pos h4 hsh) hmh
    exact ⟨mul_pos hmin har, not_lt.mp h5, hmin, min_le_right _ _⟩
  · -- neither specified: width clamp fired and the height re-check fired,
    -- which is contradictory
    have hcontra : mh * ar < mw := (lt_div_iff₀ har).mp h7
    exact absurd hcontra (asymm h6)
  · -- neither specified: width clamp fired, height re-check quiet
    exact ⟨hmw, le_rfl, div_pos hmw har, not_lt.mp h7⟩
  · -- neither specified: no width clamp, height re-check fired (vacuous)
    exact ⟨mul_pos hmh har, not_lt.mp h6, hmh, le_rfl⟩
  · -- neither specified: no clamp fired
    exact ⟨mul_pos hmh har, not_lt.mp h6, hmh, le_rfl⟩

/-- C2, amended theorem (see `calculateImageSize_bounds_cex`): with
positive *integer* `maxWidth` and `maxHeight`, a positive aspect ratio,
and positive values for whichever of `specifiedWidth`/`specifiedHeight`
are present, `calculateImageSize` returns a width in `[0, maxWidth]` and
a height in `[0, maxHeight]`; the value before rounding is strictly
positive, but a dimension below `1/2` rounds to `0`, so only
nonnegativity survives rounding. -/
theorem calculateImageSize_bounds (mw mh : ℤ) (ar : ℚ) (sw sh : Option ℚ)
    (hmw : 0 < mw) (hmh : 0 < mh) (har : 0 < ar)
    (hsw : ∀ x ∈ sw, 0 < x) (hsh : ∀ x ∈ sh, 0 < x) :
    0 ≤ (calculateImageSize (mw : ℚ) (mh : ℚ) ar sw sh).width ∧
      (calculateImageSize (mw : ℚ) (mh : ℚ) ar sw sh).width ≤ mw ∧
      0 ≤ (calculateImageSize (mw : ℚ) (mh : ℚ) ar sw sh).height ∧
      (calculateImageSize (mw : ℚ) (mh : ℚ) ar sw sh).height ≤ mh := by
  have hmw' : (0:ℚ) < (mw : ℚ) := by exact_mod_cast hmw
  have hmh' : (0:ℚ) < (mh : ℚ) := by exact_mod_cast hmh
  obtain ⟨p1, p2, p3, p4⟩ := rawImageSize_bounds sw sh hmw' hmh' har hsw hsh
  rw [calculateImageSize_eq_round_raw]
  exact ⟨jsRound_nonneg p1, jsRound_le_int p2, jsRound_nonneg p3,
    jsRound_le_int p4⟩

/-- C2, witness for `calculateImageSize_bounds` at
`maxWidth = maxHeight = 10`, aspect ratio `1`, nothing specified. -/
theorem calculateImageSize_bounds_witness :
    (0:ℤ) < 10 ∧ (0:ℚ) < 1 ∧
      (0 ≤ (calculateImageSize ((10:ℤ) : ℚ) ((10:ℤ) : ℚ) 1 none none).width ∧
        (calculateImageSize ((10:ℤ) : ℚ) ((10:ℤ) : ℚ) 1 none none).width ≤ 10 ∧
        0 ≤ (calculateImageSize ((10:ℤ) : ℚ) ((10:ℤ) : ℚ) 1 none none).height ∧
        (calculateImageSize ((10:ℤ) : ℚ) ((10:ℤ) : ℚ) 1 none none).height ≤ 10) :=
  ⟨by decide, by decide,
    calculateImageSize_bounds 10 10 1 none none (by decide) (by decide)
      (by decide) (by simp) (by simp)⟩

/-- For an integer alignment factor `a > 0`, the alignment step is
exactly `a * max 1 ⌊w / a⌋`. -/
theorem alignDim_intCast (w : ℚ) (a : ℤ) (ha : 0 < a) :
    alignDim w ((a : ℤ) : ℚ) = ((a * max 1 ⌊w / ((a : ℤ) : ℚ)⌋ : ℤ) : ℚ) := by
  unfold alignDim
  have h1 : (⌊w / ((a : ℤ) : ℚ)⌋ : ℚ) * ((a : ℤ) : ℚ) =
      ((⌊w / ((a : ℤ) : ℚ)⌋ * a : ℤ) : ℚ) := by push_cast; ring
  rw [h1, jsRound_intCast]
  have hz : a * max 1 ⌊w / ((a : ℤ) : ℚ)⌋ =
      max a (⌊w / ((a : ℤ) : ℚ)⌋ * a) := by
    rw [mul_max_of_nonneg _ _ ha.le, mul_one, mul_comm]
  rw [hz, Int.cast_max]

/-- C8: for every positive input, the alignment-aware size resolver
called with alignment `{width := 8, height := 4}` returns a width that
is a multiple of 8 and at least 8, and a height that is a multiple of 4
and at least 4. -/
theorem aligned_size_grid (mw mh ar : ℚ) (sw sh : Option ℚ)
    (hmw : 0 < mw) (hmh : 0 < mh) (har : 0 < ar)
    (hsw : ∀ x ∈ sw, 0 < x) (hsh : ∀ x ∈ sh, 0 < x) :
    (∃ i : ℤ,
      (calculateImageSizeAligned mw mh ar sw sh (some 8) (some 4)).1 =
        8 * (i : ℚ)) ∧
      8 ≤ (calculateImageSizeAligned mw mh ar sw sh (some 8) (some 4)).1 ∧
      (∃ j : ℤ,
        (calculateImageSizeAligned mw mh ar sw sh (some 8) (some 4)).2 =
          4 * (j : ℚ)) ∧
      4 ≤ (calculateImageSizeAligned mw mh ar sw sh (some 8) (some 4)).2 := by
  have h8 : numOr1 (some 8) = ((8 : ℤ) : ℚ) := by norm_num [numOr1, numTruthy]
  have h4 : numOr1 (some 4) = ((4 : ℤ) : ℚ) := by norm_num [numOr1, numTruthy]
  unfold calculateImageSizeAligned
  dsimp only
  rw [h8, h4, alignDim_intCast _ 8 (by decide), alignDim_intCast _ 4 (by decide)]
  set k1 := ⌊(rawImageSize mw mh ar sw sh).1 / ((8 : ℤ) : ℚ)⌋ with hk1
  set k2 := ⌊(rawImageSize mw mh ar sw sh).2 / ((4 : ℤ) : ℚ)⌋ with hk2
  refine ⟨⟨max 1 k1, by push_cast; ring⟩, ?_, ⟨max 1 k2, by push_cast; ring⟩, ?_⟩
  · have h : (8 : ℤ) ≤ 8 * max 1 k1 := by
      have := le_max_left (1 : ℤ) k1
      nlinarith
    exact_mod_cast h
  · have h : (4 : ℤ) ≤ 4 * max 1 k2 := by
      have := le_max_left (1 : ℤ) k2
      nlinarith
    exact_mod_cast h

/-! #### Kitty allocator lemmas -/

/-- Allocating from a state with an empty free pool mints sequential
ids `c, c+1, …`. -/
theorem generateN_empty_pool (n : ℕ) :
    ∀ c : ℕ, c + n ≤ MAX_ID →
      KittyIdGenerator.generateN ⟨c, []⟩ n =
        .ok (List.range' c n, ⟨c + n, []⟩) := by
  induction n with
  | zero => intro c _; simp [KittyIdGenerator.generateN]
  | succ n ih =>
    intro c hc
    have hcase : ¬ MAX_ID ≤ c := by omega
    simp only [KittyIdGenerator.generateN, KittyIdGenerator.generateId,
      if_neg hcase]
    rw [ih (c + 1) (by omega)]
    rw [List.range'_succ]
    have : c + 1 + n = c + (n + 1) := by omega
    rw [this]

/-- Freeing a duplicate-free list of in-range, not-yet-freed ids
appends it to the free pool in order. -/
theorem freeAll_append (l : List ℕ) :
    ∀ (c : ℕ) (f : List ℕ),
      (∀ x ∈ l, MIN_ID ≤ x ∧ x < c) → (∀ x ∈ l, x ∉ f) → l.Nodup →
      KittyIdGenerator.freeAll ⟨c, f⟩ l = ⟨c, f ++ l⟩ := by
  induction l with
  | nil => intro c f _ _ _; simp [KittyIdGenerator.freeAll]
  | cons x rest ih =>
    intro c f hrange hnotin hnd
    have hx : MIN_ID ≤ x ∧ x < c := hrange x (by simp)
    have hxf : x ∉ f := hnotin x (by simp)
    simp only [KittyIdGenerator.freeAll, KittyIdGenerator.freeId, if_pos hx,
      if_neg hxf]
    rw [ih c (f ++ [x]) (fun y hy => hrange y (by simp [hy]))
        (fun y hy hmem => by
          rcases List.mem_append.mp hmem with h | h
          · exact hnotin y (by simp [hy]) h
          · rw [List.mem_singleton] at h
            subst h
            exact (List.nodup_cons.mp hnd).1 hy)
        (List.nodup_cons.mp hnd).2]
    simp

/-- Allocating exactly as many ids as the free pool holds drains the
pool FIFO and returns precisely the pooled ids, in pool order. -/
theorem generateN_reuse (f : List ℕ) :
    ∀ c : ℕ,
      KittyIdGenerator.generateN ⟨c, f⟩ f.length = .ok (f, ⟨c, []⟩) := by
  induction f with
  | nil => intro c; simp [KittyIdGenerator.generateN]
  | cons x rest ih =>
    intro c
    simp only [List.length_cons, KittyIdGenerator.generateN,
      KittyIdGenerator.generateId]
    rw [ih c]

/-- C3: allocating `N` ids from the fresh allocator yields the `N`
sequential ids starting at `MIN_ID`; freeing all of them (in any order
`order`) and allocating `N` ids again returns exactly those same `N`
values (namely `order`, a permutation of the first batch — freed ids
are reused before new sequential ids are minted); and an allocation
attempt with the counter at `MAX_ID` and an empty free pool fails with
the overflow error instead of returning an id. -/
theorem kitty_alloc_free_realloc (N : ℕ) (order : List ℕ)
    (hN : MIN_ID + N ≤ MAX_ID)
    (hperm : order.Perm (List.range' MIN_ID N)) :
    KittyIdGenerator.init.generateN N =
        .ok (List.range' MIN_ID N, ⟨MIN_ID + N, []⟩) ∧
      ((⟨MIN_ID + N, []⟩ : KittyIdGenerator).freeAll order).generateN N =
        .ok (order, ⟨MIN_ID + N, []⟩) ∧
      (⟨MAX_ID, []⟩ : KittyIdGenerator).generateId =
        .error "Kitty ID overflow: Maximum ID value reached" := by
  refine ⟨generateN_empty_pool N MIN_ID hN, ?_,
    by simp [KittyIdGenerator.generateId]⟩
  have hrange : ∀ x ∈ order, MIN_ID ≤ x ∧ x < MIN_ID + N := by
    intro x hx
    exact List.mem_range'_1.mp (hperm.mem_iff.mp hx)
  have hnd : order.Nodup := hperm.nodup_iff.mpr (List.nodup_range' _ _)
  rw [freeAll_append order (MIN_ID + N) [] hrange (by simp) hnd]
  have hlen : order.length = N := by
    rw [hperm.length_eq]; simp
  rw [List.nil_append, ← hlen, generateN_reuse]

/-- C3, witness for `kitty_alloc_free_realloc`: allocate two ids, free
them in reverse order, reallocate. -/
theorem kitty_alloc_free_realloc_witness :
    MIN_ID + 2 ≤ MAX_ID ∧
      [MIN_ID + 1, MIN_ID].Perm (List.range' MIN_ID 2) ∧
      (KittyIdGenerator.init.generateN 2 =
          .ok (List.range' MIN_ID 2, ⟨MIN_ID + 2, []⟩) ∧
        ((⟨MIN_ID + 2, []⟩ : KittyIdGenerator).freeAll
            [MIN_ID + 1, MIN_ID]).generateN 2 =
          .ok ([MIN_ID + 1, MIN_ID], ⟨MIN_ID + 2, []⟩) ∧
        (⟨MAX_ID, []⟩ : KittyIdGenerator).generateId =
          .error "Kitty ID overflow: Maximum ID value reached") :=
  ⟨by decide, by decide,
    kitty_alloc_free_realloc 2 [MIN_ID + 1, MIN_ID] (by decide) (by decide)⟩

/-- On a successful `generateId`, the returned id is fresh (not live)
and in range, and the invariant carries to the new state. -/
theorem kittyInv_gen {live : Finset ℕ} {g : KittyIdGenerator} {i : ℕ}
    {g' : KittyIdGenerator} (h : KittyInv live g)
    (hg : g.generateId = .ok (i, g')) :
    i ∉ live ∧ MIN_ID ≤ i ∧ i < MAX_ID ∧ KittyInv (insert i live) g' := by
  obtain ⟨c, f⟩ := g
  cases f with
  | cons y rest =>
    simp only [KittyIdGenerator.generateId, Except.ok.injEq,
      Prod.mk.injEq] at hg
    obtain ⟨rfl, rfl⟩ := hg
    have hy : MIN_ID ≤ y ∧ y < c := h.freed_range y (by simp)
    have hyrest : y ∉ rest := (List.nodup_cons.mp h.freed_nodup).1
    refine ⟨h.freed_disjoint y (by simp), hy.1,
      lt_of_lt_of_le hy.2 h.le_max, ?_⟩
    constructor
    · intro j hj
      rcases Finset.mem_insert.mp hj with rfl | hj
      · exact hy
      · exact h.live_range j hj
    · intro j hj
      exact h.freed_range j (by simp [hj])
    · exact (List.nodup_cons.mp h.freed_nodup).2
    · intro j hj hins
      rcases Finset.mem_insert.mp hins with rfl | hmem
      · exact hyrest hj
      · exact h.freed_disjoint j (by simp [hj]) hmem
    · exact h.min_le
    · exact h.le_max
  | nil =>
    simp only [KittyIdGenerator.generateId] at hg
    by_cases hc : MAX_ID ≤ c
    · rw [if_pos hc] at hg
      exact absurd hg (by simp)
    · rw [if_neg hc] at hg
      simp only [Except.ok.injEq, Prod.mk.injEq] at hg
      obtain ⟨rfl, rfl⟩ := hg
      have hlt : c < MAX_ID := by omega
      refine ⟨fun hmem => ?_, h.min_le, hlt, ?_⟩
      · exact absurd (h.live_range c hmem).2 (lt_irrefl c)
      · refine ⟨?_, ?_, List.nodup_nil, ?_, ?_, ?_⟩
        · intro j hj
          rcases Finset.mem_insert.mp hj with rfl | hj
          · exact ⟨h.min_le, Nat.lt_succ_self j⟩
          · have hr := h.live_range j hj
            exact ⟨hr.1, Nat.lt_succ_of_lt hr.2⟩
        · intro j hj
          simp at hj
        · intro j hj
          simp at hj
        · exact Nat.le_succ_of_le h.min_le
        · exact hlt

/-- Freeing a live id preserves the invariant. -/
theorem kittyInv_free {live : Finset ℕ} {g : KittyIdGenerator} {i : ℕ}
    (h : KittyInv live g) (hi : i ∈ live) :
    KittyInv (live.erase i) (g.freeId i).2 := by
  obtain ⟨c, f⟩ := g
  have hir : MIN_ID ≤ i ∧ i < c := h.live_range i hi
  have hif : i ∉ f := fun hmem => h.freed_disjoint i hmem hi
  simp only [KittyIdGenerator.freeId, if_pos hir, if_neg hif]
  constructor
  · intro j hj
    exact h.live_range j (Finset.mem_of_mem_erase hj)
  · intro j hj
    rcases List.mem_append.mp hj with hj | hj
    · exact h.freed_range j hj
    · rw [List.mem_singleton] at hj
      subst hj
      exact hir
  · rw [List.nodup_append]
    exact ⟨h.freed_nodup, List.nodup_singleton i,
      fun a ha hb => by rw [List.mem_singleton] at hb; subst hb; exact hif ha⟩
  · intro j hj hjmem
    rcases List.mem_append.mp hj with hj | hj
    · exact h.freed_disjoint j hj (Finset.mem_of_mem_erase hjmem)
    · rw [List.mem_singleton] at hj
      subst hj
      exact absurd hjmem (Finset.not_mem_erase j live)
  · exact h.min_le
  · exact h.le_max

/-- Every reachable allocator state satisfies the invariant. -/
theorem kittyReachable_inv {live : Finset ℕ} {g : KittyIdGenerator}
    (h : KittyReachable live g) : KittyInv live g := by
  induction h with
  | init =>
    refine ⟨?_, ?_, ?_, ?_, le_refl _, ?_⟩ <;>
      simp [KittyIdGenerator.init, MIN_ID, MAX_ID]
  | gen _ hg ih => exact (kittyInv_gen ih hg).2.2.2
  | free _ hi ih => exact kittyInv_free ih hi

/-- C6: in every state reachable by an interleaving of `generateId` and
`freeId` calls that frees only currently live ids, a successful
allocation returns an id that is distinct from every live id (so no
two live ids are ever equal) and lies in `[MIN_ID, MAX_ID)`. -/
theorem kitty_live_ids_fresh {live : Finset ℕ} {g : KittyIdGenerator}
    (h : KittyReachable live g) :
    ∀ (i : ℕ) (g' : KittyIdGenerator), g.generateId = .ok (i, g') →
      i ∉ live ∧ MIN_ID ≤ i ∧ i < MAX_ID := by
  intro i g' hg
  have hres := kittyInv_gen (kittyReachable_inv h) hg
  exact ⟨hres.1, hres.2.1, hres.2.2.1⟩

/-- C6, witness for `kitty_live_ids_fresh`: the very first allocation
from the fresh allocator. -/
theorem kitty_live_ids_fresh_witness :
    MIN_ID ∉ (∅ : Finset ℕ) ∧ MIN_ID ≤ MIN_ID ∧ MIN_ID < MAX_ID :=
  kitty_live_ids_fresh KittyReachable.init MIN_ID ⟨MIN_ID + 1, []⟩ rfl

/-! #### queryEscapeSequence lemmas -/

theorem string_length_zero_iff (s : String) : s.length = 0 ↔ s = "" := by
  constructor
  · intro h
    cases s with
    | mk data =>
      cases data with
      | nil => rfl
      | cons c cs => simp [String.length] at h
  · intro h
    subst h
    rfl

/-- After resolution every event is a no-op: the listeners are removed
and the timers cleared, so no handler can run again. -/
theorem queryStep_resolved_noop {s : QueryState}
    (hd : s.dataListener = false) (hc : s.closeListener = false)
    (ha : s.absTimer = none) (hq : s.quietTimer = none) (e : QueryEvent) :
    queryStep s e = s := by
  cases e <;> simp [queryStep, hd, hc, ha, hq]

theorem queryInv_start (w t : Bool) : QueryInv w t (queryStart w t) := by
  refine ⟨rfl, rfl, ?_, ?_⟩
  · intro h
    simp [queryStart] at h
  · intro _
    refine ⟨rfl, rfl, rfl, Or.inl rfl, fun _ => ⟨rfl, rfl, rfl⟩, fun hq => ?_⟩
    simp [queryStart] at hq

/-- One step preserves the invariant. -/
theorem queryInv_step {w t : Bool} {s : QueryState} {e : QueryEvent}
    (h : QueryInv w t s) (he : validQueryEvent e) :
    QueryInv w t (queryStep s e) := by
  rcases hres : s.result with _ | r
  · -- pending
    obtain ⟨hd, hc, hraw, _, habs, hqt⟩ := h.pending hres
    have hrestore_raw : (restoreState s).rawMode = w := by
      show (if s.isTTY then s.wasRaw else s.rawMode) = w
      have htt : t = s.isTTY := h.tty_eq.symm
      have hw := h.was_eq
      cases ht : s.isTTY <;> simp_all
    cases e with
    | data chunk =>
      rw [queryStep, if_pos hd]
      refine ⟨h.was_eq, h.tty_eq, ?_, ?_⟩
      · intro hsome
        simp only at hsome
        rw [hres] at hsome
        simp at hsome
      · intro _
        refine ⟨hd, hc, hraw, Or.inr rfl, ?_, ?_⟩
        · intro hsome
          simp at hsome
        · intro _
          refine ⟨rfl, ?_, rfl⟩
          have : 0 < chunk.length := he
          simp only [String.length_append]
          omega
    | absTimeout =>
      rcases ha : s.absTimer with _ | d
      · rw [queryStep, ha]
        exact ⟨h.was_eq, h.tty_eq, h.resolved, h.pending⟩
      · rw [queryStep, ha]
        refine ⟨h.was_eq, h.tty_eq, ?_, ?_⟩
        · intro _
          exact ⟨rfl, rfl, rfl, rfl, hrestore_raw⟩
        · intro hnone
          simp at hnone
    | quietTimeout =>
      rcases hq : s.quietTimer with _ | d
      · rw [queryStep, hq]
        exact ⟨h.was_eq, h.tty_eq, h.resolved, h.pending⟩
      · rw [queryStep, hq]
        refine ⟨h.was_eq, h.tty_eq, ?_, ?_⟩
        · intro _
          exact ⟨rfl, rfl, rfl, rfl, hrestore_raw⟩
        · intro hnone
          simp at hnone
    | close =>
      rw [queryStep, if_pos hc]
      refine ⟨h.was_eq, h.tty_eq, ?_, ?_⟩
      · intro _
        exact ⟨rfl, rfl, rfl, rfl, hrestore_raw⟩
      · intro hnone
        simp at hnone
  · -- resolved: every event is a no-op
    obtain ⟨hd, hc, ha, hq, _⟩ := h.resolved (by rw [hres]; rfl)
    rw [queryStep_resolved_noop hd hc ha hq]
    exact h

/-- The invariant holds after any valid run. -/
theorem queryInv_run {w t : Bool} (evs : List QueryEvent) :
    ∀ s : QueryState, QueryInv w t s → (∀ e ∈ evs, validQueryEvent e) →
      QueryInv w t (evs.foldl queryStep s) := by
  induction evs with
  | nil => intro s hs _; exact hs
  | cons e rest ih =>
    intro s hs hval
    exact ih _ (queryInv_step hs (hval e (by simp)))
      (fun x hx => hval x (by simp [hx]))

/-- C9: in any execution of `queryEscapeSequence` (any valid event
sequence), once the exchange is finalized both listeners are removed,
both timers are cleared and the stream's raw/cooked mode is back to
what it was before the call; a finalization is final (every later
event is a no-op); and while still pending, exactly one of the
absolute timer (100 ms) or the quiet timer (50 ms) is armed, the
absolute timeout can only fire with no data received and resolves
`undefined`, the quiet timeout only after data and resolves the
accumulated (nonempty) reply, and stream closure resolves the
accumulated reply when nonempty and `undefined` otherwise. -/
theorem query_escape_sequence_finalization (w t : Bool)
    (evs : List QueryEvent) (hval : ∀ e ∈ evs, validQueryEvent e) :
    ((queryRun w t evs).result.isSome →
      (queryRun w t evs).dataListener = false ∧
      (queryRun w t evs).closeListener = false ∧
      (queryRun w t evs).absTimer = none ∧
      (queryRun w t evs).quietTimer = none ∧
      (queryRun w t evs).rawMode = w) ∧
    ((queryRun w t evs).result.isSome →
      ∀ e : QueryEvent, queryStep (queryRun w t evs) e = queryRun w t evs) ∧
    ((queryRun w t evs).result = none →
      ((queryRun w t evs).absTimer = some responseTimeout ∨
        (queryRun w t evs).quietTimer = some timeoutBetweenReplies) ∧
      ((queryRun w t evs).absTimer.isSome →
        (queryRun w t evs).runningReply = "" ∧
        (queryStep (queryRun w t evs) .absTimeout).result = some none) ∧
      ((queryRun w t evs).quietTimer.isSome →
        (queryRun w t evs).runningReply ≠ "" ∧
        (queryStep (queryRun w t evs) .quietTimeout).result =
          some (some (queryRun w t evs).runningReply)) ∧
      (queryStep (queryRun w t evs) .close).result =
        some (replyValue (queryRun w t evs))) := by
  have hinv : QueryInv w t (queryRun w t evs) :=
    queryInv_run evs _ (queryInv_start w t) hval
  refine ⟨fun hs => hinv.resolved hs, fun hs e => ?_, fun hnone => ?_⟩
  · obtain ⟨hd, hc, ha, hq, _⟩ := hinv.resolved hs
    exact queryStep_resolved_noop hd hc ha hq e
  · obtain ⟨hd, hc, _, hor, habs, hqt⟩ := hinv.pending hnone
    refine ⟨hor, ?_, ?_, ?_⟩
    · intro hsome
      obtain ⟨haeq, hlen, _⟩ := habs hsome
      refine ⟨(string_length_zero_iff _).mp hlen, ?_⟩
      rw [queryStep, haeq]
    · intro hsome
      obtain ⟨hqeq, hlen, _⟩ := hqt hsome
      constructor
      · intro hempty
        rw [hempty] at hlen
        simp at hlen
      · rw [queryStep, hqeq]
        simp [replyValue, hlen]
    · rw [queryStep, if_pos hc]

/-- C9, witness for `query_escape_sequence_finalization`: the empty
event sequence on a cooked TTY stream. -/
theorem query_escape_sequence_finalization_witness :
    (∀ e ∈ ([] : List QueryEvent), validQueryEvent e) ∧
      (((queryRun false true []).result.isSome →
        (queryRun false true []).dataListener = false ∧
        (queryRun false true []).closeListener = false ∧
        (queryRun false true []).absTimer = none ∧
        (queryRun false true []).quietTimer = none ∧
        (queryRun false true []).rawMode = false) ∧
      ((queryRun false true []).result.isSome →
        ∀ e : QueryEvent,
          queryStep (queryRun false true []) e = queryRun false true []) ∧
      ((queryRun false true []).result = none →
        ((queryRun false true []).absTimer = some responseTimeout ∨
          (queryRun false true []).quietTimer = some timeoutBetweenReplies) ∧
        ((queryRun false true []).absTimer.isSome →
          (queryRun false true []).runningReply = "" ∧
          (queryStep (queryRun false true []) .absTimeout).result =
            some none) ∧
        ((queryRun false true []).quietTimer.isSome →
          (queryRun false true []).runningReply ≠ "" ∧
          (queryStep (queryRun false true []) .quietTimeout).result =
            some (some (queryRun false true []).runningReply)) ∧
        (queryStep (queryRun false true []) .close).result =
          some (replyValue (queryRun false true [])))) :=
  ⟨by simp, query_escape_sequence_finalization false true [] (by simp)⟩

/-- C4, counterexample: the claimed glyphs for opaque pixels are wrong
on the code.  An all-black opaque pixel `(0,0,0,255)` has intensity
`255/1020 = 1/4` (the alpha channel counts), giving index
`69 - ⌊69/4⌋ = 52`, not the densest glyph `ascii_chars[0] = '$'`; and
an all-white opaque pixel has intensity `1`, giving index `0` — the
densest glyph, not the sparsest `ascii_chars[69] = ' '`. -/
theorem ascii_glyph_map_cex :
    asciiPixelChar 0 0 0 255 ≠ ascii_chars.getD 0 ' ' ∧
      asciiPixelChar 255 255 255 255 ≠ ascii_chars.getD 69 '$' := by
  have h1 : asciiCharIndex 0 0 0 255 = 52 := by
    norm_num [asciiCharIndex, asciiIntensity, ascii_chars]
    decide
  have h2 : asciiCharIndex 255 255 255 255 = 0 := by
    norm_num [asciiCharIndex, asciiIntensity, ascii_chars]
  constructor
  · rw [asciiPixelChar, h1]
    decide
  · rw [asciiPixelChar, h2]
    decide

/-- C4, amended: intensity is `(r+g+b+a)/(255·4)` with the zero-sum
special case mapping to `0`, and the glyph index is
`69 - ⌊intensity · 69⌋`, so *high* intensity selects dense
(early-ramp) glyphs: a fully transparent black pixel `(0,0,0,0)` maps
to the sparsest glyph `' '` (the zero-total-intensity special case), an
all-white opaque pixel maps to the densest glyph `'$'`, and an
all-black opaque pixel has intensity `1/4` and maps to the glyph at
index 52, `'_'`. -/
theorem ascii_glyph_map :
    ascii_chars.length = 70 ∧
      ascii_chars.getD 0 '.' = '$' ∧
      ascii_chars.getD 69 '$' = ' ' ∧
      asciiIntensity 0 0 0 0 = 0 ∧
      asciiIntensity 0 0 0 255 = 1 / 4 ∧
      asciiIntensity 255 255 255 255 = 1 ∧
      asciiPixelChar 0 0 0 0 = ' ' ∧
      asciiPixelChar 255 255 255 255 = '$' ∧
      asciiPixelChar 0 0 0 255 = '_' := by
  have h0 : asciiCharIndex 0 0 0 0 = 69 := by
    norm_num [asciiCharIndex, asciiIntensity, ascii_chars]
    decide
  have h1 : asciiCharIndex 255 255 255 255 = 0 := by
    norm_num [asciiCharIndex, asciiIntensity, ascii_chars]
  have h2 : asciiCharIndex 0 0 0 255 = 52 := by
    norm_num [asciiCharIndex, asciiIntensity, ascii_chars]
    decide
  refine ⟨by decide, by decide, by decide,
    by norm_num [asciiIntensity],
    by norm_num [asciiIntensity],
    by norm_num [asciiIntensity], ?_, ?_, ?_⟩
  · rw [asciiPixelChar, h0]
    decide
  · rw [asciiPixelChar, h1]
    decide
  · rw [asciiPixelChar, h2]
    decide

/-- C7: a failing source fetch is a distinct "load failed" outcome, not
an exception: whenever the external decode throws, `fetchImage` returns
`undefined`, the component effect records the error while leaving no
image output, and the component then renders the placeholder
("Load failed" plus the alternative text) instead of image output. -/
theorem load_failure_renders_placeholder {ε Img : Type}
    (read : String → Except ε Img) (src : String) (e : ε)
    (hread : read src = .error e)
    (computeOutput : Img → Option String) (alt : Option String)
    (st : AsciiComponentState) (hst : st.imageOutput = none) :
    fetchImage read src = none ∧
      (generateImageOutputStep (fetchImage read src) computeOutput st).hasError
        = true ∧
      renderAscii (generateImageOutputStep (fetchImage read src) computeOutput st)
          alt
        = .placeholder true (jsStrOr alt "Loading...") := by
  have hfetch : fetchImage read src = none := by
    unfold fetchImage
    rw [hread]
  refine ⟨hfetch, ?_, ?_⟩
  · rw [hfetch]
    rfl
  · rw [hfetch]
    unfold generateImageOutputStep renderAscii
    rw [hst]

/-- C7, witness for `load_failure_renders_placeholder`: a read that
always throws, applied to the initial component state. -/
theorem load_failure_renders_placeholder_witness :
    fetchImage (fun _ : String => (Except.error () : Except Unit Unit))
        "image.png" = none ∧
      (generateImageOutputStep
          (fetchImage (fun _ : String => (Except.error () : Except Unit Unit))
            "image.png")
          (fun _ => none) ⟨none, false⟩).hasError = true ∧
      renderAscii
          (generateImageOutputStep
            (fetchImage (fun _ : String => (Except.error () : Except Unit Unit))
              "image.png")
            (fun _ => none) ⟨none, false⟩) none
        = .placeholder true (jsStrOr none "Loading...") :=
  load_failure_renders_placeholder
    (fun _ : String => (Except.error () : Except Unit Unit)) "image.png" ()
    rfl (fun _ => none) none ⟨none, false⟩ rfl

/-- C8, witness for `aligned_size_grid` at `maxWidth = maxHeight = 100`,
aspect ratio `1`, nothing specified. -/
theorem aligned_size_grid_witness :
    (0 : ℚ) < 100 ∧ (0 : ℚ) < 1 ∧
      ((∃ i : ℤ,
        (calculateImageSizeAligned 100 100 1 none none (some 8) (some 4)).1 =
          8 * (i : ℚ)) ∧
        8 ≤ (calculateImageSizeAligned 100 100 1 none none (some 8) (some 4)).1 ∧
        (∃ j : ℤ,
          (calculateImageSizeAligned 100 100 1 none none (some 8) (some 4)).2 =
            4 * (j : ℚ)) ∧
        4 ≤ (calculateImageSizeAligned 100 100 1 none none (some 8) (some 4)).2) :=
  ⟨by decide, by decide,
    aligned_size_grid 100 100 1 none none (by decide) (by decide) (by decide)
      (by simp) (by simp)⟩

end InkPicture
